import Mathlib

/-!
Verification of the Gimhan-Revit-Automation pyRevit extension scripts.

The repository is a collection of IronPython scripts run inside Autodesk
Revit.  Each script is embedded shallowly: Revit geometry (XYZ vectors,
faces, bounding boxes) is modelled over the rationals, stateful script
bodies are modelled as pure functions from an environment describing the
document and the user interaction to either result values or traces of
observable events (transaction control, document mutations, log or alert
output), and the self-update hook is modelled as a function from the
outcome of each external git call to the list of actions the hook performs.
-/

namespace Gimhan

/-! ## Basic geometry model (Revit `XYZ` over the rationals) -/

/-- A Revit `XYZ` vector, modelled over the rationals. -/
structure Vec3 where
  x : ℚ
  y : ℚ
  z : ℚ
deriving DecidableEq, Repr

/-- Dot product of two vectors (`XYZ.DotProduct`). -/
def Vec3.dot (a b : Vec3) : ℚ := a.x * b.x + a.y * b.y + a.z * b.z

/-- Vector sum (`XYZ` addition). -/
def Vec3.add (a b : Vec3) : Vec3 := ⟨a.x + b.x, a.y + b.y, a.z + b.z⟩

/-- Scalar multiple of a vector (`XYZ` scaling). -/
def Vec3.smul (c : ℚ) (a : Vec3) : Vec3 := ⟨c * a.x, c * a.y, c * a.z⟩

/-! ## C9: longitudinal rebar layout
(`BeamRebar.pushbutton/script.py`, `get_lbs` lines 537-557 and
`calculate_bars` lines 220-248).

A rebar point in local beam coordinates: `lx` across the beam width
(0 = centreline), `ly` over the beam height. -/

/-- A `RebarPoint(lx, ly, ...)` from the script, keeping the two local
coordinates used by the layout (diameter and type name do not affect
placement). -/
structure RebarPt where
  lx : ℚ
  ly : ℚ
deriving DecidableEq, Repr

/-- The effective width `ew = bw - 2.0*cov - 2.0*sd - md` computed by
`get_lbs` (beam width minus twice side cover, twice stirrup diameter,
and one main-bar diameter). -/
def effWidth (bw cov sd md : ℚ) : ℚ := bw - 2 * cov - 2 * sd - md

/-- The start abscissa `sx = -bw/2.0 + cov + sd + md/2.0` computed by
`get_lbs`. -/
def startX (bw cov sd md : ℚ) : ℚ := -bw / 2 + cov + sd + md / 2

/-- The inner layer generator `gl(q, y)` of `get_lbs` / `calculate_bars`:
one bar on the centreline when `q == 1`, otherwise `q` bars at
`sx + i * (ew / (q-1))`; nothing for `q == 0`. -/
def gl (sx ew : ℚ) (q : Nat) (y : ℚ) : List RebarPt :=
  if q = 1 then [⟨0, y⟩]
  else if 1 < q then
    (List.range q).map (fun (i : Nat) => ⟨sx + (i : ℚ) * (ew / ((q : ℚ) - 1)), y⟩)
  else []

/-- The zone quantities `{"T1", "T2", "B1", "B2"}` of a beam rebar zone
configuration. -/
structure ZoneCfg where
  t1 : Nat
  t2 : Nat
  b1 : Nat
  b2 : Nat
deriving DecidableEq, Repr

/-- `get_lbs(zone, bw, bh)` from the script: computes `ew`, returns `[]`
when `ew <= 0`, otherwise lays out the four layers (top outer, top inner
when positive, bottom outer, bottom inner when positive) with `gl`. -/
def getLbs (bw bh cov sd md : ℚ) (cfg : ZoneCfg) : List RebarPt :=
  let ew := effWidth bw cov sd md
  if ew ≤ 0 then []
  else
    let sx := startX bw cov sd md
    let yt1 := bh / 2 - cov - sd - md / 2
    let yb1 := -bh / 2 + cov + sd + md / 2
    gl sx ew cfg.t1 yt1
      ++ (if 0 < cfg.t2 then gl sx ew cfg.t2 (yt1 - md - max md (82/1000)) else [])
      ++ gl sx ew cfg.b1 yb1
      ++ (if 0 < cfg.b2 then gl sx ew cfg.b2 (yb1 + md + max md (82/1000)) else [])

end Gimhan

namespace Gimhan

/-- Abscissa of the bar with index `i` in a layer of the layout
(the `lx` of the point `gl` produces at position `i`; default `0`
outside the range). -/
def layerX (bw cov sd md y : ℚ) (q : Nat) (i : Nat) : ℚ :=
  ((gl (startX bw cov sd md) (effWidth bw cov sd md) q y).getD i ⟨0, 0⟩).lx

theorem gl_length_of_two_le (sx ew y : ℚ) (q : Nat) (h : 2 ≤ q) :
    (gl sx ew q y).length = q := by
  have h1 : ¬ q = 1 := by omega
  have h2 : 1 < q := by omega
  simp [gl, h1, h2]

theorem gl_getD_of_lt (sx ew y : ℚ) (q i : Nat) (h : 2 ≤ q) (hi : i < q) :
    (gl sx ew q y).getD i ⟨0, 0⟩ = ⟨sx + (i : ℚ) * (ew / ((q : ℚ) - 1)), y⟩ := by
  have h1 : ¬ q = 1 := by omega
  have h2 : 1 < q := by omega
  simp only [gl, if_neg h1, if_pos h2]
  rw [List.getD_eq_getElem?_getD, List.getElem?_map, List.getElem?_range hi]
  rfl

theorem startX_eq_neg_half_effWidth (bw cov sd md : ℚ) :
    startX bw cov sd md = -(effWidth bw cov sd md) / 2 := by
  unfold startX effWidth; ring

theorem layerX_formula (bw cov sd md y : ℚ) (q i : Nat) (h : 2 ≤ q) (hi : i < q) :
    layerX bw cov sd md y q i
      = startX bw cov sd md + (i : ℚ) * (effWidth bw cov sd md / ((q : ℚ) - 1)) := by
  rw [layerX, gl_getD_of_lt _ _ _ _ _ h hi]

theorem qcast_sub_one_ne_zero (q : Nat) (h : 2 ≤ q) : ((q : ℚ) - 1) ≠ 0 := by
  have : (2 : ℚ) ≤ (q : ℚ) := by exact_mod_cast h
  intro hc
  nlinarith

/-- Claim C9: longitudinal rebar layout is evenly spaced and symmetric.
For a layer quantity `q`: if `q = 1` the single bar sits on the beam
centreline (`lx = 0`); if `q ≥ 2` the bars sit at
`sx + i * ew/(q-1)` for `i = 0..q-1` where
`ew = beam width - 2*cover - 2*stirrup diameter - bar diameter` and
`sx = -ew/2`, so the first and last bars sit at the opposite cover faces
(`-ew/2` and `ew/2`), adjacent bars are equally spaced, and the layout is
symmetric about the centreline; and if `ew ≤ 0` the zone produces no
bars. -/
theorem rebar_layer_even_and_symmetric
    (bw bh cov sd md y : ℚ) (q : Nat) (cfg : ZoneCfg) :
    (q = 1 →
      gl (startX bw cov sd md) (effWidth bw cov sd md) q y = [⟨0, y⟩]) ∧
    (2 ≤ q →
      startX bw cov sd md = -(effWidth bw cov sd md) / 2 ∧
      (gl (startX bw cov sd md) (effWidth bw cov sd md) q y).length = q ∧
      (∀ i, i < q →
        layerX bw cov sd md y q i
          = startX bw cov sd md
            + (i : ℚ) * (effWidth bw cov sd md / ((q : ℚ) - 1))) ∧
      layerX bw cov sd md y q 0 = -(effWidth bw cov sd md) / 2 ∧
      layerX bw cov sd md y q (q - 1) = effWidth bw cov sd md / 2 ∧
      (∀ i, i + 1 < q →
        layerX bw cov sd md y q (i + 1) - layerX bw cov sd md y q i
          = effWidth bw cov sd md / ((q : ℚ) - 1)) ∧
      (∀ i, i < q →
        layerX bw cov sd md y q i + layerX bw cov sd md y q (q - 1 - i) = 0)) ∧
    (effWidth bw cov sd md ≤ 0 → getLbs bw bh cov sd md cfg = []) := by
  refine ⟨fun hq => ?_, fun hq => ?_, fun hew => ?_⟩
  · subst hq; simp [gl]
  · have hne : ((q : ℚ) - 1) ≠ 0 := qcast_sub_one_ne_zero q hq
    have hq1 : 1 ≤ q := by omega
    have hcast : ((q - 1 : Nat) : ℚ) = (q : ℚ) - 1 := by
      push_cast [Nat.cast_sub hq1]; ring
    refine ⟨startX_eq_neg_half_effWidth bw cov sd md,
            gl_length_of_two_le _ _ _ _ hq,
            fun i hi => layerX_formula bw cov sd md y q i hq hi,
            ?_, ?_, ?_, ?_⟩
    · rw [layerX_formula bw cov sd md y q 0 hq (by omega),
          startX_eq_neg_half_effWidth]
      push_cast; ring
    · rw [layerX_formula bw cov sd md y q (q - 1) hq (by omega),
          startX_eq_neg_half_effWidth, hcast]
      field_simp
      ring
    · intro i hi
      rw [layerX_formula bw cov sd md y q (i + 1) hq hi,
          layerX_formula bw cov sd md y q i hq (by omega)]
      push_cast; ring
    · intro i hi
      rw [layerX_formula bw cov sd md y q i hq hi,
          layerX_formula bw cov sd md y q (q - 1 - i) hq (by omega),
          startX_eq_neg_half_effWidth]
      have hcast2 : ((q - 1 - i : Nat) : ℚ) = (q : ℚ) - 1 - (i : ℚ) := by
        have h1 : i ≤ q - 1 := by omega
        push_cast [Nat.cast_sub h1, Nat.cast_sub hq1]; ring
      rw [hcast2]
      field_simp
      ring
  · rw [getLbs]
    simp [hew]

/-- Witness for C9: evaluates the layout at concrete inputs
(`bw = 1, cov = sd = md = 0`, so `ew = 1` and `sx = -1/2`; layers with
`q = 1` and `q = 4`; and a zone with `ew = -1 ≤ 0`). -/
theorem rebar_layer_even_and_symmetric_witness :
    gl (startX 1 0 0 0) (effWidth 1 0 0 0) 1 5 = [⟨0, 5⟩] ∧
    layerX 1 0 0 0 5 4 0 = -(effWidth 1 0 0 0) / 2 ∧
    layerX 1 0 0 0 5 4 3 = effWidth 1 0 0 0 / 2 ∧
    layerX 1 0 0 0 5 4 1 + layerX 1 0 0 0 5 4 2 = 0 ∧
    getLbs 1 2 1 0 0 ⟨2, 0, 2, 0⟩ = [] := by
  have h1 := (rebar_layer_even_and_symmetric 1 2 0 0 0 5 1 ⟨2, 0, 2, 0⟩).1 rfl
  have h4 := (rebar_layer_even_and_symmetric 1 2 0 0 0 5 4 ⟨2, 0, 2, 0⟩).2.1
    (by norm_num)
  have hneg := (rebar_layer_even_and_symmetric 1 2 1 0 0 5 2 ⟨2, 0, 2, 0⟩).2.2
    (by unfold effWidth; norm_num)
  refine ⟨h1, h4.2.2.2.1, ?_, ?_, hneg⟩
  · have := h4.2.2.2.2.1
    norm_num at this ⊢
    exact this
  · have := h4.2.2.2.2.2.2 1 (by norm_num)
    norm_num at this ⊢
    exact this

/-! ## C7: Change Host level transfer
(`ChangeHost.pushbutton/script.py`, `main` lines 138-183 and
`get_level_param` / `get_offset_param` lines 21-65).

An element is modelled by the data the per-element loop body reads:
whether `get_level_param` found a writable level parameter, the element id
that parameter stores when its storage type is `ElementId` (used as the
fallback for an invalid `el.LevelId`), the `el.LevelId` property itself
(`none` models `InvalidElementId`), and the current value of the writable
offset parameter found by `get_offset_param`, when one exists. -/

/-- The per-element state read by the ChangeHost loop. -/
structure ElementState where
  hasLevelParam : Bool
  levelParamStoresId : Option Nat
  levelIdProp : Option Nat
  offsetParam : Option ℚ
deriving DecidableEq, Repr

/-- `doc.GetElement(level_id).Elevation`: look an elevation up in the
document level table (association list of element id to elevation). -/
def lookupElev (levels : List (Nat × ℚ)) (i : Nat) : Option ℚ :=
  (levels.find? (fun p => p.1 = i)).map (fun p => p.2)

/-- Step B of the loop: `current_level_id = el.LevelId`, falling back to
`p_level.AsElementId()` when `el.LevelId` is `InvalidElementId`. -/
def currentLevelId (el : ElementState) : Option Nat :=
  match el.levelIdProp with
  | some i => some i
  | none => el.levelParamStoresId

/-- Outcome of the per-element body of the ChangeHost transaction loop:
either one of the three skip paths (each of which just prints), or the
element was moved, recording the level id written to the level parameter,
the value written to the offset parameter (`none` when no offset
parameter exists), and whether the could-not-set-offset warning was
printed. -/
inductive HostOutcome where
  | noLevelParam
  | noCurrentLevel
  | levelMissing
  | moved (newLevelId : Nat) (newOffset : Option ℚ) (warn : Bool)
deriving DecidableEq, Repr

/-- The per-element body of `main` steps A-E: find the level parameter,
determine the current level, read its elevation, read the offset (0 when
no offset parameter), compute `absolute_z = current elevation + offset`
and `new_offset = absolute_z - target elevation`, then set the level
parameter to the target and the offset parameter to `new_offset` when it
exists (warning when it does not and `|new_offset| > 0.001`). -/
def changeHostElement (levels : List (Nat × ℚ)) (targetId : Nat)
    (targetElev : ℚ) (el : ElementState) : HostOutcome :=
  if el.hasLevelParam then
    match currentLevelId el with
    | none => .noCurrentLevel
    | some cid =>
      match lookupElev levels cid with
      | none => .levelMissing
      | some curElev =>
        let curOff := el.offsetParam.getD 0
        let newOff := curElev + curOff - targetElev
        match el.offsetParam with
        | some _ => .moved targetId (some newOff) false
        | none => .moved targetId none (decide (|newOff| > 1/1000))
  else .noLevelParam

/-- Claim C7: for every element with a writable level parameter, a
determinable current level with a known elevation, and a writable offset
parameter, the transfer sets the level parameter to the target level and
the offset parameter to `(old level elevation + old offset) - target
elevation`, so the absolute elevation `level elevation + offset` is
unchanged. -/
theorem changeHost_preserves_absolute_elevation
    (levels : List (Nat × ℚ)) (targetId : Nat) (targetElev : ℚ)
    (el : ElementState) (cid : Nat) (curElev off : ℚ)
    (h1 : el.hasLevelParam = true)
    (h2 : currentLevelId el = some cid)
    (h3 : lookupElev levels cid = some curElev)
    (h4 : el.offsetParam = some off) :
    changeHostElement levels targetId targetElev el
      = .moved targetId (some (curElev + off - targetElev)) false ∧
    targetElev + (curElev + off - targetElev) = curElev + off := by
  constructor
  · rw [changeHostElement, if_pos h1, h2]
    simp only [h3, h4, Option.getD_some]
  · ring

/-- Witness for C7: a concrete element on a level of elevation 10 with
offset 3, moved to a level of elevation 25; the new offset is -12 and the
absolute elevation 13 is preserved. -/
theorem changeHost_preserves_absolute_elevation_witness :
    changeHostElement [(1, 10), (2, 25)] 2 25 ⟨true, none, some 1, some 3⟩
      = .moved 2 (some (10 + 3 - 25)) false ∧
    (25 : ℚ) + (10 + 3 - 25) = 10 + 3 :=
  changeHost_preserves_absolute_elevation [(1, 10), (2, 25)] 2 25
    ⟨true, none, some 1, some 3⟩ 1 10 3
    (by decide) (by decide) (by decide) (by decide)

/-! ## C8: Toggle Grid Bubbles
(`ToggleGridBubbles.pushbutton/script.py`, `main` lines 39-57).

A grid is modelled by its element id and the visibility of its two datum
end bubbles in the active view (`IsBubbleVisibleInView(End0/End1)`). -/

/-- The per-grid/per-view bubble state. -/
structure GridState where
  id : Nat
  vis0 : Bool
  vis1 : Bool
deriving DecidableEq, Repr

/-- The loop body for one picked grid: read `vis0` and `vis1` first, then
hide the bubble at an end whose bubble was visible and show it at an end
whose bubble was hidden. -/
def toggleGrid (g : GridState) : GridState :=
  ⟨g.id, if g.vis0 then false else true, if g.vis1 then false else true⟩

/-- Processing one picked reference: `doc.GetElement(ref.ElementId)`
resolves the grid with that id, which is then toggled. -/
def applyRef (rid : Nat) (gs : List GridState) : List GridState :=
  gs.map (fun g => if g.id = rid then toggleGrid g else g)

/-- The whole `with revit.Transaction` loop: process the picked
references in order. -/
def toggleGridBubbles (sel : List Nat) (grids : List GridState) :
    List GridState :=
  sel.foldl (fun gs rid => applyRef rid gs) grids

theorem toggleGrid_id (g : GridState) : (toggleGrid g).id = g.id := rfl

theorem toggleGrid_involutive (g : GridState) :
    toggleGrid (toggleGrid g) = g := by
  cases g with
  | mk i v0 v1 => cases v0 <;> cases v1 <;> rfl

theorem toggleGrid_iterate_id (n : Nat) (g : GridState) :
    (toggleGrid^[n] g).id = g.id := by
  induction n generalizing g with
  | zero => rfl
  | succ n ih => rw [Function.iterate_succ_apply, ih, toggleGrid_id]

theorem toggleGrid_iterate_cancel (n : Nat) (g : GridState) :
    toggleGrid^[n] (toggleGrid^[n] g) = g := by
  induction n generalizing g with
  | zero => rfl
  | succ n ih =>
    rw [Function.iterate_succ_apply' toggleGrid n (toggleGrid^[n + 1] g),
        Function.iterate_succ_apply]
    rw [ih (toggleGrid g), toggleGrid_involutive]

theorem toggleGridBubbles_eq_map_iterate (sel : List Nat)
    (grids : List GridState) :
    toggleGridBubbles sel grids
      = grids.map (fun g => toggleGrid^[sel.count g.id] g) := by
  induction sel generalizing grids with
  | nil => simp [toggleGridBubbles]
  | cons r sel ih =>
    have hstep : toggleGridBubbles (r :: sel) grids
        = toggleGridBubbles sel (applyRef r grids) := rfl
    rw [hstep, ih, applyRef, List.map_map]
    refine List.map_congr_left (fun g _ => ?_)
    simp only [Function.comp_apply]
    by_cases hg : g.id = r
    · rw [if_pos hg, toggleGrid_id, List.count_cons, if_pos (by simp [hg]),
          ← Function.iterate_succ_apply]
    · have hbe : (r == g.id) = false := by
        simp only [beq_eq_false_iff_ne, ne_eq]
        exact fun h => hg h.symm
      rw [if_neg hg, List.count_cons, hbe]
      simp

/-- Claim C8: Toggle Grid Bubbles negates bubble visibility independently
at both datum ends of every selected grid (leaving unselected grids
unchanged), and running the operation twice on the same selection restores
the original state (the operation is an involution). -/
theorem toggleGridBubbles_negates_and_involutive (sel : List Nat)
    (grids : List GridState) (h : sel.Nodup) :
    toggleGridBubbles sel grids
      = grids.map (fun g =>
          if g.id ∈ sel then
            ⟨g.id, if g.vis0 then false else true,
                   if g.vis1 then false else true⟩
          else g) ∧
    toggleGridBubbles sel (toggleGridBubbles sel grids) = grids := by
  constructor
  · rw [toggleGridBubbles_eq_map_iterate]
    refine List.map_congr_left (fun g _ => ?_)
    by_cases hm : g.id ∈ sel
    · rw [if_pos hm, List.count_eq_one_of_mem h hm]
      rfl
    · rw [if_neg hm, List.count_eq_zero_of_not_mem hm]
      rfl
  · rw [toggleGridBubbles_eq_map_iterate, toggleGridBubbles_eq_map_iterate,
        List.map_map]
    have : ∀ g ∈ grids,
        (toggleGrid^[sel.count (toggleGrid^[sel.count g.id] g).id] ∘
          fun g => toggleGrid^[sel.count g.id] g) g = g := by
      intro g _
      simp only [Function.comp_apply, toggleGrid_iterate_id]
      exact toggleGrid_iterate_cancel _ g
    calc grids.map _ = grids.map id := List.map_congr_left (by
            intro g hg
            simpa using this g hg)
      _ = grids := List.map_id grids

/-- Witness for C8: three grids, two of them selected; the selected
bubbles are negated at both ends and a second run restores the original
state. -/
theorem toggleGridBubbles_negates_and_involutive_witness :
    toggleGridBubbles [1, 3] [⟨1, true, false⟩, ⟨2, true, true⟩, ⟨3, false, false⟩]
      = [⟨1, false, true⟩, ⟨2, true, true⟩, ⟨3, true, true⟩] ∧
    toggleGridBubbles [1, 3]
        (toggleGridBubbles [1, 3]
          [⟨1, true, false⟩, ⟨2, true, true⟩, ⟨3, false, false⟩])
      = [⟨1, true, false⟩, ⟨2, true, true⟩, ⟨3, false, false⟩] := by
  have h := toggleGridBubbles_negates_and_involutive [1, 3]
    [⟨1, true, false⟩, ⟨2, true, true⟩, ⟨3, false, false⟩] (by decide)
  exact ⟨by rw [h.1]; decide, h.2⟩

/-! ## C1: the startup self-update hook
(`Update.extension/hooks/app-init.py`, `check_for_updates` lines 17-85).

The hook shells out to git; each external call is modelled by its
outcome in the environment, and the hook itself by the list of actions it
performs in order.  `git fetch` and `git status` read or update only the
git metadata; the only action that changes the extension folder (the
working tree) is `git pull`, and the only user-visible actions are the
three alerts. -/

/-- Outcome of `subprocess.check_call(["git", "fetch", "origin"], ...,
timeout=10)`: success, `TimeoutExpired`, or another exception. -/
inductive FetchOutcome where
  | ok
  | timeout
  | err
deriving DecidableEq, Repr

/-- Outcome of `subprocess.check_output(["git", "status", "-uno"], ...)`:
output containing "Your branch is behind", output without it, or an
exception. -/
inductive StatusOutcome where
  | behind
  | upToDate
  | err
deriving DecidableEq, Repr

/-- The environment the hook runs against: whether `find_git_root` found
a repository root, the outcomes of the fetch and status calls, the answer
to the yes/no alert, and whether `git pull` exits with return code 0. -/
structure StartupEnv where
  repoRootFound : Bool
  fetch : FetchOutcome
  status : StatusOutcome
  userConfirms : Bool
  pullSucceeds : Bool
deriving DecidableEq, Repr

/-- The observable actions of the hook, in program order. -/
inductive UpdateAction where
  | gitFetch
  | gitStatus
  | alertUpdatesAvailable
  | gitPull
  | alertUpdateComplete
  | alertUpdateError
deriving DecidableEq, Repr

/-- `check_for_updates()`: return immediately without a repo root;
fetch (a timeout or error is caught by the `except` arms, which `pass`);
read `git status -uno` (an error is likewise caught silently); when the
output reports the branch behind, ask the user, and only on confirmation
run `git pull`, alerting success or failure by its return code. -/
def checkForUpdates (env : StartupEnv) : List UpdateAction :=
  if env.repoRootFound then
    match env.fetch with
    | .timeout => [.gitFetch]
    | .err => [.gitFetch]
    | .ok =>
      match env.status with
      | .err => [.gitFetch, .gitStatus]
      | .upToDate => [.gitFetch, .gitStatus]
      | .behind =>
        if env.userConfirms then
          [.gitFetch, .gitStatus, .alertUpdatesAvailable, .gitPull]
            ++ (if env.pullSucceeds then [.alertUpdateComplete]
                else [.alertUpdateError])
        else [.gitFetch, .gitStatus, .alertUpdatesAvailable]
  else []

/-- An action that changes the extension folder: only `git pull` does. -/
def UpdateAction.mutatesWorkingTree : UpdateAction → Bool
  | .gitPull => true
  | _ => false

/-- A user-visible action: the three alerts. -/
def UpdateAction.isAlert : UpdateAction → Bool
  | .alertUpdatesAvailable => true
  | .alertUpdateComplete => true
  | .alertUpdateError => true
  | _ => false

/-- Claim C1: the startup hook runs `git pull` (the only action that
syncs the extension folder) exactly when a repo root was found, the
fetch succeeded, the status check reports the branch behind, and the user
confirms; and when the fetch times out or the fetch or status check
raises, the hook performs no working-tree change and no alert (it returns
silently). -/
theorem checkForUpdates_pull_iff_and_silent_on_error (env : StartupEnv) :
    (UpdateAction.gitPull ∈ checkForUpdates env ↔
      env.repoRootFound = true ∧ env.fetch = .ok ∧
      env.status = .behind ∧ env.userConfirms = true) ∧
    (env.fetch = .timeout ∨ env.fetch = .err ∨ env.status = .err →
      ∀ a ∈ checkForUpdates env,
        a.mutatesWorkingTree = false ∧ a.isAlert = false) := by
  cases env with
  | mk root fetch status confirms pull =>
    cases root <;> cases fetch <;> cases status <;> cases confirms <;>
      cases pull <;> exact ⟨by decide, by decide⟩

/-- Witness for C1: in the environment where everything succeeds, the
branch is behind, and the user confirms, `git pull` is run; in the
environment where the fetch times out, no action mutates the working tree
and no alert is shown. -/
theorem checkForUpdates_pull_iff_witness :
    (UpdateAction.gitPull ∈ checkForUpdates ⟨true, .ok, .behind, true, true⟩) ∧
    (∀ a ∈ checkForUpdates ⟨true, .timeout, .behind, true, true⟩,
      a.mutatesWorkingTree = false ∧ a.isAlert = false) :=
  ⟨(checkForUpdates_pull_iff_and_silent_on_error
      ⟨true, .ok, .behind, true, true⟩).1.mpr
      ⟨rfl, rfl, rfl, rfl⟩,
   (checkForUpdates_pull_iff_and_silent_on_error
      ⟨true, .timeout, .behind, true, true⟩).2 (Or.inl rfl)⟩

/-! ## C2 and C6: transaction bracketing and error handling across scripts

Each script is modelled as a trace of observable events: transaction
control (`Transaction.Start` / `Commit` / `RollBack`, and the
`TransactionGroup` of the dimension tool), document mutations, and log or
alert output.  A script body that the source shows contains no
transaction statement is modelled as a list of `ScriptEv` events
(mutations and logs only), so the bracketing theorems cover every
behaviour of those bodies. -/

/-- The kinds of document mutation the scripts perform. -/
inductive MutKind where
  | setParam
  | createDimension
  | createDetailCurve
  | setCategoryVisible
  | toggleBubble
  | copyElements
  | createRebar
  | createRebarType
deriving DecidableEq, Repr

/-- An observable event of a script run. -/
inductive Ev where
  | txStart
  | txCommit
  | txRollBack
  | txGroupStart
  | txGroupCommit
  | mutate (k : MutKind)
  | log
deriving DecidableEq, Repr

/-- Is the event a document mutation? -/
def Ev.isMut : Ev → Bool
  | .mutate _ => true
  | _ => false

/-- Is the event a transaction-control event (`Start`, `Commit` or
`RollBack`)? -/
def Ev.isTx : Ev → Bool
  | .txStart => true
  | .txCommit => true
  | .txRollBack => true
  | _ => false

/-- An event that a transaction-free script body can produce: a document
mutation or a log or alert, never transaction control. -/
inductive ScriptEv where
  | mutate (k : MutKind)
  | log
deriving DecidableEq, Repr

/-- Inclusion of body events into trace events. -/
def ScriptEv.toEv : ScriptEv → Ev
  | .mutate k => .mutate k
  | .log => .log

theorem ScriptEv.toEv_not_tx (e : ScriptEv) : e.toEv.isTx = false := by
  cases e <;> rfl

/-- Every document mutation in the trace lies between a `Transaction`
start and a commit: the events before it end with a `txStart` followed
only by non-transaction events, and the events after it reach a
`txCommit` with only non-transaction events in between. -/
def MutationsFenced (tr : List Ev) : Prop :=
  ∀ pre e post, tr = pre ++ e :: post → e.isMut = true →
    (∃ p1 p2, pre = p1 ++ Ev.txStart :: p2 ∧ ∀ x ∈ p2, x.isTx = false) ∧
    (∃ q1 q2, post = q1 ++ Ev.txCommit :: q2 ∧ ∀ x ∈ q1, x.isTx = false)

theorem mutationsFenced_of_no_mut (tr : List Ev)
    (h : ∀ e ∈ tr, e.isMut = false) : MutationsFenced tr := by
  intro pre e post htr hmut
  exfalso
  have : e ∈ tr := by rw [htr]; simp
  rw [h e this] at hmut
  exact Bool.false_ne_true hmut

theorem mutationsFenced_append (a b : List Ev)
    (ha : MutationsFenced a) (hb : MutationsFenced b) :
    MutationsFenced (a ++ b) := by
  intro pre e post htr hmut
  rcases List.append_eq_append_iff.mp htr with ⟨m, hpre, hb'⟩ | ⟨m, ha', hpost⟩
  · -- the mutation sits inside `b`
    obtain ⟨⟨p1, p2, hm, hp2⟩, ⟨q1, q2, hq, hq1⟩⟩ := hb m e post hb' hmut
    refine ⟨⟨a ++ p1, p2, ?_, hp2⟩, ⟨q1, q2, hq, hq1⟩⟩
    rw [hpre, hm, List.append_assoc]
  · -- the split point is inside `a`
    rcases m with _ | ⟨e', m⟩
    · -- `m = []`: the mutation is the head of `b`
      obtain ⟨⟨p1, p2, hm, _⟩, _⟩ :=
        hb [] e post (by simpa using hpost.symm) hmut
      exact absurd hm.symm (by simp)
    · -- the mutation is inside `a`
      have he' : e = e' ∧ post = m ++ b := by
        have := hpost
        simp only [List.cons_append, List.cons.injEq] at this
        exact this
      obtain ⟨heq, hpost'⟩ := he'
      subst heq
      obtain ⟨⟨p1, p2, hm, hp2⟩, ⟨q1, q2, hq, hq1⟩⟩ :=
        ha pre e m ha' hmut
      refine ⟨⟨p1, p2, hm, hp2⟩, ⟨q1, q2 ++ b, ?_, hq1⟩⟩
      rw [hpost', hq]; simp

theorem mutationsFenced_txn_block (body : List Ev)
    (h : ∀ x ∈ body, x.isTx = false) :
    MutationsFenced (Ev.txStart :: body ++ [Ev.txCommit]) := by
  intro pre e post htr hmut
  rcases pre with _ | ⟨e0, pre⟩
  · simp only [List.nil_append, List.cons_append, List.cons.injEq] at htr
    rw [← htr.1] at hmut
    exact absurd hmut (by decide)
  · have htr' : Ev.txStart = e0 ∧ body ++ [Ev.txCommit] = pre ++ e :: post := by
      have := htr
      simp only [List.cons_append, List.cons.injEq] at this
      exact this
    obtain ⟨he0, hrest⟩ := htr'
    rw [List.append_eq_append_iff] at hrest
    rcases hrest with ⟨m, hpre', hone⟩ | ⟨m, hbody, hone⟩
    · -- pre extends to the end of the body: e could only be the txCommit
      rcases m with _ | ⟨e1, m⟩
      · have : Ev.txCommit = e ∧ [] = post := by
          simpa using hone
        rw [← this.1] at hmut
        exact absurd hmut (by decide)
      · have : Ev.txCommit = e1 ∧ [] = m ++ e :: post := by
          simp only [List.cons_append, List.cons.injEq, List.singleton_append]
            at hone
          exact hone
        exact absurd this.2.symm (by simp)
    · rcases m with _ | ⟨e1, m⟩
      · have : e = Ev.txCommit := by
          have := hone
          simp only [List.nil_append, List.cons.injEq] at this
          exact this.1
        rw [this] at hmut
        exact absurd hmut (by decide)
      · have hone' : e = e1 ∧ post = m ++ [Ev.txCommit] := by
          have := hone
          simp only [List.cons_append, List.cons.injEq] at this
          exact ⟨this.1, this.2⟩
        obtain ⟨rfl, hpost⟩ := hone'
        refine ⟨⟨[], pre, by rw [← he0]; rfl, fun x hx => h x ?_⟩,
                ⟨m, [], by rw [hpost], fun x hx => h x ?_⟩⟩
        · rw [hbody]; simp [hx]
        · rw [hbody]; simp [hx]

theorem mutationsFenced_flatten (segs : List (List Ev))
    (h : ∀ s ∈ segs, MutationsFenced s) :
    MutationsFenced segs.flatten := by
  induction segs with
  | nil => exact mutationsFenced_of_no_mut [] (by simp)
  | cons s segs ih =>
    rw [List.flatten_cons]
    exact mutationsFenced_append s segs.flatten (h s (by simp))
      (ih (fun s' hs' => h s' (List.mem_cons_of_mem _ hs')))

theorem map_toEv_not_tx (l : List ScriptEv) :
    ∀ x ∈ l.map ScriptEv.toEv, x.isTx = false := by
  intro x hx
  obtain ⟨s, _, rfl⟩ := List.mem_map.mp hx
  exact s.toEv_not_tx

theorem flatMap_map_toEv_not_tx {α : Type} (f : α → List ScriptEv)
    (l : List α) :
    ∀ x ∈ l.flatMap (fun a => (f a).map ScriptEv.toEv), x.isTx = false := by
  intro x hx
  obtain ⟨a, _, hx'⟩ := List.mem_flatMap.mp hx
  exact map_toEv_not_tx (f a) x hx'

/-! ### The script traces -/

/-- Events of the per-element body of the ChangeHost transaction loop
(lines 138-187): each skip path prints; a move sets the level parameter
and then the offset parameter when one exists, else possibly prints the
could-not-set-offset warning. -/
def hostEvents : HostOutcome → List ScriptEv
  | .noLevelParam => [.log]
  | .noCurrentLevel => [.log]
  | .levelMissing => [.log]
  | .moved _ (some _) _ => [.mutate .setParam, .mutate .setParam]
  | .moved _ none warn => .mutate .setParam :: (if warn then [.log] else [])

/-- The document/UI environment of a ChangeHost run after the three
selection dialogs. -/
structure ChangeHostEnv where
  levels : List (Nat × ℚ)
  targetId : Nat
  targetElev : ℚ
  elements : List ElementState

/-- The ChangeHost `main` from `t.Start()` on: transaction start, the
per-element bodies, `t.Commit()`, then the three summary prints. -/
def changeHostTrace (env : ChangeHostEnv) : List Ev :=
  (Ev.txStart ::
      env.elements.flatMap (fun el =>
        (hostEvents
          (changeHostElement env.levels env.targetId env.targetElev el)).map
          ScriptEv.toEv)
    ++ [Ev.txCommit]) ++ [Ev.log, Ev.log, Ev.log]

/-- Revit parameter storage types
(`StorageType.String/Double/Integer/ElementId`). -/
inductive StorageType where
  | str
  | dbl
  | int
  | eid
deriving DecidableEq, Repr

/-- The data the TransferValue per-element body reads from an element:
the source parameter (its storage type and whether its value is non-null)
when `LookupParameter` finds one, and the target parameter (its storage
type and read-only flag) likewise. -/
structure TVElement where
  source : Option (StorageType × Bool)
  target : Option (StorageType × Bool)
deriving DecidableEq, Repr

/-- The TransferValue per-element body
(`TransferValue.pushbutton/script.py` lines 150-204): print and skip when
the source or target parameter is missing or the target is read-only or
the source value is null; otherwise `p_target.Set(...)` (through the
string-formatting branch or directly). -/
def transferValueElement (el : TVElement) : List ScriptEv :=
  match el.source with
  | none => [.log]
  | some (_, hasVal) =>
    match el.target with
    | none => [.log]
    | some (_, readOnly) =>
      if readOnly then [.log]
      else if hasVal then [.mutate .setParam]
      else [.log]

/-- The TransferValue `main` from the processing print on: print,
transaction start, per-element bodies, `t.Commit()`, four report
prints. -/
def transferValueTrace (elements : List TVElement) : List Ev :=
  [Ev.log] ++
    ((Ev.txStart ::
        elements.flatMap (fun el => (transferValueElement el).map ScriptEv.toEv)
      ++ [Ev.txCommit]) ++ [Ev.log, Ev.log, Ev.log, Ev.log])

/-- The DimFoundation `main` transaction section
(`DimFoundation.pushbutton/script.py` lines 190-201): a
`TransactionGroup` start, one `revit.Transaction` wrapping every call of
`create_dimensions_for_foundation`, the group commit, and the final
report.  `create_dimensions_for_foundation` contains no transaction
statement, so each call is modelled by an arbitrary list of mutation/log
events; the theorem therefore covers every behaviour of that body. -/
def dimFoundationTrace (foundations : List (List ScriptEv)) : List Ev :=
  [Ev.txGroupStart] ++
    ((Ev.txStart :: foundations.flatMap (fun b => b.map ScriptEv.toEv)
      ++ [Ev.txCommit]) ++ [Ev.txGroupCommit, Ev.log])

/-- The ToggleGridBubbles `main` transaction
(`ToggleGridBubbles.pushbutton/script.py` lines 39-59): for each picked
grid the body toggles the bubble at each datum end (two view mutations),
then the final print. -/
def toggleGridTrace (sel : List Nat) : List Ev :=
  (Ev.txStart ::
      sel.flatMap (fun _ => [Ev.mutate .toggleBubble, Ev.mutate .toggleBubble])
    ++ [Ev.txCommit]) ++ [Ev.log]

/-- The CopyFromLink (pick-objects variant,
`LinkTools.extension/Tools.tab/.../script.py` lines 81-103) copy phase:
`t.Start()`; on success `CopyElements`, two prints, `t.Commit()`; when
`CopyElements` raises, a print, `t.RollBack()` and return (no commit, and
the partial changes of the failed copy are discarded). -/
def copyFromLinkPickTrace (copyOk : Bool) : List Ev :=
  if copyOk then
    Ev.txStart :: [Ev.mutate .copyElements, Ev.log, Ev.log] ++ [Ev.txCommit]
  else [Ev.txStart, Ev.log, Ev.txRollBack]

/-- The CopyFromLink (by-category variant,
`LinkTools.extension/ToolsByGimhan.tab/.../script.py` lines 82-102) copy
phase: as the pick variant with a single success print. -/
def copyFromLinkCatTrace (copyOk : Bool) : List Ev :=
  if copyOk then
    Ev.txStart :: [Ev.mutate .copyElements, Ev.log] ++ [Ev.txCommit]
  else [Ev.txStart, Ev.log, Ev.txRollBack]

/-- One `ensure_bar_type` creation (`BeamRebar.pushbutton/script.py`
lines 414-418): its own `with revit.Transaction` duplicating a bar type
and setting its diameter parameter. -/
def ensureBarTypeBlock : List Ev :=
  Ev.txStart :: [Ev.mutate .createRebarType, Ev.mutate .setParam]
    ++ [Ev.txCommit]

/-- The BeamRebar `create_rebar` trace: one `ensure_bar_type` transaction
per missing standard size, then the single `with revit.Transaction("Batch
Beam Rebar")` wrapping the whole generation loop (lines 562-664), whose
body (stirrup and main-bar creation, layout, visibility, logging, and the
final alert) contains no transaction statement and is modelled as
arbitrary per-beam mutation/log events. -/
def beamRebarTrace (missingTypes : Nat) (perBeam : List (List ScriptEv)) :
    List Ev :=
  (List.replicate missingTypes ensureBarTypeBlock).flatten ++
    (Ev.txStart ::
        (perBeam.flatMap (fun b => b.map ScriptEv.toEv) ++ [Ev.log])
      ++ [Ev.txCommit])

/-- Claim C2: in every run of every mutating script, every document
mutation (setting a parameter, creating a dimension or detail curve,
toggling grid-bubble visibility, copying elements, creating rebar) occurs
between a `Transaction` start and commit; no script mutates the document
outside a transaction. -/
theorem all_mutations_between_start_and_commit
    (env : ChangeHostEnv) (tvs : List TVElement)
    (fnds : List (List ScriptEv)) (sel : List Nat) (ok1 ok2 : Bool)
    (missing : Nat) (beams : List (List ScriptEv)) :
    MutationsFenced (changeHostTrace env) ∧
    MutationsFenced (transferValueTrace tvs) ∧
    MutationsFenced (dimFoundationTrace fnds) ∧
    MutationsFenced (toggleGridTrace sel) ∧
    MutationsFenced (copyFromLinkPickTrace ok1) ∧
    MutationsFenced (copyFromLinkCatTrace ok2) ∧
    MutationsFenced (beamRebarTrace missing beams) := by
  refine ⟨?_, ?_, ?_, ?_, ?_, ?_, ?_⟩
  · exact mutationsFenced_append _ _
      (mutationsFenced_txn_block _ (flatMap_map_toEv_not_tx _ _))
      (mutationsFenced_of_no_mut _ (by decide))
  · refine mutationsFenced_append _ _
      (mutationsFenced_of_no_mut _ (by decide))
      (mutationsFenced_append _ _
        (mutationsFenced_txn_block _ (flatMap_map_toEv_not_tx _ _))
        (mutationsFenced_of_no_mut _ (by decide)))
  · refine mutationsFenced_append _ _
      (mutationsFenced_of_no_mut _ (by decide))
      (mutationsFenced_append _ _
        (mutationsFenced_txn_block _ (flatMap_map_toEv_not_tx _ _))
        (mutationsFenced_of_no_mut _ (by decide)))
  · refine mutationsFenced_append _ _
      (mutationsFenced_txn_block _ ?_)
      (mutationsFenced_of_no_mut _ (by decide))
    intro x hx
    obtain ⟨a, _, hx'⟩ := List.mem_flatMap.mp hx
    have hx2 : x = Ev.mutate .toggleBubble ∨ x = Ev.mutate .toggleBubble := by
      simpa using hx'
    rcases hx2 with h | h <;> (rw [h]; rfl)
  · cases ok1 with
    | false => exact mutationsFenced_of_no_mut _ (by decide)
    | true =>
      exact mutationsFenced_txn_block [.mutate .copyElements, .log, .log]
        (by decide)
  · cases ok2 with
    | false => exact mutationsFenced_of_no_mut _ (by decide)
    | true =>
      exact mutationsFenced_txn_block [.mutate .copyElements, .log]
        (by decide)
  · refine mutationsFenced_append _ _
      (mutationsFenced_flatten _ ?_) (mutationsFenced_txn_block _ ?_)
    · intro s hs
      rw [List.eq_of_mem_replicate hs]
      exact mutationsFenced_txn_block
        [.mutate .createRebarType, .mutate .setParam] (by decide)
    · intro x hx
      rcases List.mem_append.mp hx with h | h
      · exact flatMap_map_toEv_not_tx _ _ x h
      · rw [List.mem_singleton] at h; rw [h]; rfl

/-- Witness for C2: the fencing property evaluated on concrete runs of
each script (one ChangeHost element, one TransferValue element, one
foundation body, one grid, both copy outcomes, one ensured bar type and
one beam body). -/
theorem all_mutations_between_start_and_commit_witness :
    MutationsFenced (changeHostTrace
      ⟨[(1, 10)], 2, 25, [⟨true, none, some 1, some 3⟩]⟩) ∧
    MutationsFenced (transferValueTrace [⟨some (.dbl, true), some (.dbl, false)⟩]) ∧
    MutationsFenced (dimFoundationTrace [[.mutate .createDimension, .log]]) ∧
    MutationsFenced (toggleGridTrace [1]) ∧
    MutationsFenced (copyFromLinkPickTrace true) ∧
    MutationsFenced (copyFromLinkCatTrace false) ∧
    MutationsFenced (beamRebarTrace 1 [[.mutate .createRebar]]) :=
  all_mutations_between_start_and_commit
    ⟨[(1, 10)], 2, 25, [⟨true, none, some 1, some 3⟩]⟩
    [⟨some (.dbl, true), some (.dbl, false)⟩]
    [[.mutate .createDimension, .log]] [1] true false 1
    [[.mutate .createRebar]]

/-! ### C6: failure handling -/

/-- The C6 claim, formalised: no script ever responds to an error with a
state-restoring action; in particular no run of either CopyFromLink
script ever performs a `Transaction.RollBack`. -/
def NoScriptEverRollsBack : Prop :=
  ∀ ok : Bool, Ev.txRollBack ∉ copyFromLinkPickTrace ok ∧
    Ev.txRollBack ∉ copyFromLinkCatTrace ok

/-- Counterexample to C6: when `CopyElements` raises, both CopyFromLink
scripts execute `t.RollBack()` — a state-restoring action beyond
logging — so the claim is false. -/
theorem copyFromLink_rolls_back_on_failed_copy :
    Ev.txRollBack ∈ copyFromLinkPickTrace false ∧
    Ev.txRollBack ∈ copyFromLinkCatTrace false ∧
    ¬NoScriptEverRollsBack := by
  refine ⟨by decide, by decide, fun h => ?_⟩
  exact absurd (by decide : Ev.txRollBack ∈ copyFromLinkPickTrace false)
    (h false).1

theorem toEv_ne_rollBack (s : ScriptEv) : s.toEv = Ev.txRollBack ↔ False := by
  cases s <;> simp [ScriptEv.toEv]

/-- Amended claim C6: on error every script catches the exception and
only logs or alerts, except that the two CopyFromLink scripts
additionally roll back their transaction exactly when the copy raises; no
other script performs any state-restoring action. -/
theorem only_copyFromLink_rolls_back
    (env : ChangeHostEnv) (tvs : List TVElement)
    (fnds : List (List ScriptEv)) (sel : List Nat) (ok1 ok2 : Bool)
    (missing : Nat) (beams : List (List ScriptEv)) :
    (Ev.txRollBack ∈ copyFromLinkPickTrace ok1 ↔ ok1 = false) ∧
    (Ev.txRollBack ∈ copyFromLinkCatTrace ok2 ↔ ok2 = false) ∧
    Ev.txRollBack ∉ changeHostTrace env ∧
    Ev.txRollBack ∉ transferValueTrace tvs ∧
    Ev.txRollBack ∉ dimFoundationTrace fnds ∧
    Ev.txRollBack ∉ toggleGridTrace sel ∧
    Ev.txRollBack ∉ beamRebarTrace missing beams := by
  refine ⟨?_, ?_, ?_, ?_, ?_, ?_, ?_⟩
  · cases ok1 <;> simp [copyFromLinkPickTrace]
  · cases ok2 <;> simp [copyFromLinkCatTrace]
  · intro h
    simp [changeHostTrace, toEv_ne_rollBack] at h
  · intro h
    simp [transferValueTrace, toEv_ne_rollBack] at h
  · intro h
    simp [dimFoundationTrace, toEv_ne_rollBack] at h
  · intro h
    simp [toggleGridTrace] at h
  · intro h
    simp [beamRebarTrace, ensureBarTypeBlock, toEv_ne_rollBack] at h
    obtain ⟨l, ⟨_, hl⟩, hmem⟩ := h
    rw [hl] at hmem
    simp at hmem

/-- Witness for the amended C6: both rollback biconditionals and the
no-rollback facts evaluated on concrete runs. -/
theorem only_copyFromLink_rolls_back_witness :
    (Ev.txRollBack ∈ copyFromLinkPickTrace false ↔ false = false) ∧
    (Ev.txRollBack ∈ copyFromLinkCatTrace true ↔ true = false) ∧
    Ev.txRollBack ∉ changeHostTrace
      ⟨[(1, 10)], 2, 25, [⟨true, none, some 1, some 3⟩]⟩ ∧
    Ev.txRollBack ∉ transferValueTrace [⟨some (.dbl, true), some (.dbl, false)⟩] ∧
    Ev.txRollBack ∉ dimFoundationTrace [[.mutate .createDimension]] ∧
    Ev.txRollBack ∉ toggleGridTrace [1] ∧
    Ev.txRollBack ∉ beamRebarTrace 1 [[.mutate .createRebar]] :=
  only_copyFromLink_rolls_back
    ⟨[(1, 10)], 2, 25, [⟨true, none, some 1, some 3⟩]⟩
    [⟨some (.dbl, true), some (.dbl, false)⟩]
    [[.mutate .createDimension]] [1] false true 1 [[.mutate .createRebar]]

/-! ## C5: persistence
(`BeamRebar.pushbutton/script.py`, `ProfileManager` lines 42-71 and
`save_profile_click` lines 165-188).

`ProfileManager` keeps a JSON file `profiles.json` next to the script: a
map from profile name to profile data.  The file content is modelled as
`Option` of that map (`none` = the file does not exist; a successful
`json.load` returns the stored map, and `json.dump` writes the in-memory
map back).  One invocation of the script constructs a `ProfileManager`
(which loads the file) and `save_profile_click` saves a named profile,
writing the file. -/

/-- The `"Global"` block of a stored profile (the six numeric fields the
default profile carries). -/
structure GlobalCfg where
  sideCover : Nat
  endOffset : Nat
  endSpacing : Nat
  midSpacing : Nat
  beamWidth : Nat
  beamHeight : Nat
deriving DecidableEq, Repr

/-- A stored profile: the two zone quantity blocks and the global
block. -/
structure Profile where
  endSections : ZoneCfg
  middleSection : ZoneCfg
  globalCfg : GlobalCfg
deriving DecidableEq, Repr

/-- The `"Default"` profile `load_profiles` inserts when missing. -/
def defaultProfile : Profile :=
  ⟨⟨2, 0, 2, 0⟩, ⟨2, 0, 2, 0⟩, ⟨25, 40, 150, 250, 300, 600⟩⟩

/-- `self.profiles[name]` lookup (`none` models a missing key, so
`(getProfile ps n).isSome` models `n in self.profiles`). -/
def getProfile : List (String × Profile) → String → Option Profile
  | [], _ => none
  | p :: ps, name => if p.1 = name then some p.2 else getProfile ps name

/-- `self.profiles[name] = data`: update the existing key in place or
append a new one (Python dict semantics). -/
def setProfile : List (String × Profile) → String → Profile →
    List (String × Profile)
  | [], name, d => [(name, d)]
  | p :: ps, name, d =>
    if p.1 = name then (name, d) :: ps else p :: setProfile ps name d

/-- `ProfileManager.load_profiles`: read `profiles.json` when it exists
(an absent file or failed parse leaves `{}`), then insert the `"Default"`
profile when that key is missing. -/
def loadProfiles (fs : Option (List (String × Profile))) :
    List (String × Profile) :=
  let ps := fs.getD []
  if (getProfile ps "Default").isSome then ps
  else ("Default", defaultProfile) :: ps

/-- One script invocation that saves a profile: the `ProfileManager`
constructor loads the file content `fs`, `save_profile` sets the key and
dumps the whole map back to `profiles.json`; the result is the new file
content. -/
def saveProfileFS (fs : Option (List (String × Profile))) (name : String)
    (d : Profile) : Option (List (String × Profile)) :=
  some (setProfile (loadProfiles fs) name d)

/-- The C5 claim, formalised: no script operation reads or writes
persistent state of its own, i.e. a profile save leaves the file
untouched and a load never depends on the file content. -/
def NoScriptPersistence : Prop :=
  ∀ (fs : Option (List (String × Profile))) (name : String) (d : Profile),
    saveProfileFS fs name d = fs ∧ loadProfiles fs = loadProfiles none

theorem getProfile_setProfile_same (ps : List (String × Profile))
    (name : String) (d : Profile) :
    getProfile (setProfile ps name d) name = some d := by
  induction ps with
  | nil => simp [setProfile, getProfile]
  | cons p ps ih =>
    by_cases h : p.1 = name
    · simp [setProfile, getProfile, h]
    · simp [setProfile, getProfile, h, ih]

theorem getProfile_setProfile_other (ps : List (String × Profile))
    (name other : String) (d : Profile) (h : other ≠ name) :
    getProfile (setProfile ps name d) other = getProfile ps other := by
  induction ps with
  | nil => simp [setProfile, getProfile, h.symm]
  | cons p ps ih =>
    by_cases hp : p.1 = name
    · simp [setProfile, getProfile, hp, h.symm]
    · simp only [setProfile, if_neg hp, getProfile]
      by_cases hq : p.1 = other <;> simp [hq, ih]

theorem default_isSome_loadProfiles (fs : Option (List (String × Profile))) :
    (getProfile (loadProfiles fs) "Default").isSome := by
  rw [loadProfiles]
  by_cases h : (getProfile (fs.getD []) "Default").isSome
  · simp [h]
  · simp [h, getProfile]

/-- Counterexample to C5: starting from no `profiles.json`, saving a
profile named "A" writes a file, and a fresh invocation (a new
`ProfileManager` loading that file) reads the saved profile back — the
BeamRebar script keeps persistent state of its own across invocations. -/
theorem beamRebar_profileManager_is_persistent :
    saveProfileFS none "A" defaultProfile ≠ none ∧
    getProfile (loadProfiles (saveProfileFS none "A" defaultProfile)) "A"
      = some defaultProfile ∧
    ¬NoScriptPersistence := by
  refine ⟨by simp [saveProfileFS], by decide, fun h => ?_⟩
  have := (h none "A" defaultProfile).1
  simp [saveProfileFS] at this

/-- Amended claim C5: every script except BeamRebar keeps no persistent
state of its own; BeamRebar's `ProfileManager` keeps a `profiles.json`
store next to the script, which `save_profile` writes and a later
invocation's `load_profiles` reads back: saving under a name and loading
in a fresh invocation returns exactly the saved profile. -/
theorem beamRebar_profile_store_roundtrip
    (fs : Option (List (String × Profile))) (name : String) (d : Profile) :
    saveProfileFS fs name d = some (setProfile (loadProfiles fs) name d) ∧
    getProfile (loadProfiles (saveProfileFS fs name d)) name = some d := by
  refine ⟨rfl, ?_⟩
  rw [saveProfileFS, loadProfiles]
  have hd : (getProfile (setProfile (loadProfiles fs) name d) "Default").isSome := by
    by_cases h : "Default" = name
    · rw [h, getProfile_setProfile_same]; rfl
    · rw [getProfile_setProfile_other _ _ _ _ h]
      exact default_isSome_loadProfiles fs
  simp only [Option.getD_some, hd, if_pos]
  exact getProfile_setProfile_same _ _ _

/-- Witness for the amended C5: the round-trip evaluated on a concrete
store, name and profile. -/
theorem beamRebar_profile_store_roundtrip_witness :
    saveProfileFS none "MyBeam" defaultProfile
      = some (setProfile (loadProfiles none) "MyBeam" defaultProfile) ∧
    getProfile (loadProfiles (saveProfileFS none "MyBeam" defaultProfile))
      "MyBeam" = some defaultProfile :=
  beamRebar_profile_store_roundtrip none "MyBeam" defaultProfile

/-! ## C4: how many files implement the foundation auto-dimensioning
heuristic.

The repository has exactly twelve Python source files.  For each, three
flags record — read off from its code — whether it contains the three
ingredients of the heuristic: finding side faces by the
perpendicular-normal filter, pairing parallel faces, and placing
dimension lines at computed offsets.  Only
`DimFoundation.pushbutton/script.py` contains any of them (its companion
`diagnostic.py` only counts geometric references and lists styles; it
computes no normals, pairs nothing and places nothing). -/

/-- A source file of the repository with its heuristic-ingredient
flags. -/
structure SourceFile where
  path : String
  findsSideFaces : Bool
  pairsFaces : Bool
  placesOffsets : Bool
deriving DecidableEq, Repr

/-- A file implements the foundation auto-dimensioning heuristic when it
contains all three ingredients. -/
def SourceFile.implementsHeuristic (f : SourceFile) : Bool :=
  f.findsSideFaces && f.pairsFaces && f.placesOffsets

/-- The twelve source files of the repository. -/
def repoSourceFiles : List SourceFile :=
  [⟨"DimensionTools.extension/ToolsByGimhan.tab/Annotate.panel/DimFoundation.pushbutton/script.py",
      true, true, true⟩,
   ⟨"DimensionTools.extension/ToolsByGimhan.tab/Annotate.panel/DimFoundation.pushbutton/diagnostic.py",
      false, false, false⟩,
   ⟨"HostTools.extension/ToolsByGimhan.tab/Grids.panel/ToggleGridBubbles.pushbutton/script.py",
      false, false, false⟩,
   ⟨"HostTools.extension/ToolsByGimhan.tab/Modify.panel/ChangeHost.pushbutton/script.py",
      false, false, false⟩,
   ⟨"LinkTools.extension/Tools.tab/Copy.panel/CopyFromLink.pushbutton/script.py",
      false, false, false⟩,
   ⟨"LinkTools.extension/ToolsByGimhan.tab/Copy.panel/CopyFromLink.pushbutton/script.py",
      false, false, false⟩,
   ⟨"ParamTransfer.extension/ToolsByGimhan.tab/Modify.panel/TransferValue.pushbutton/script.py",
      false, false, false⟩,
   ⟨"RebarTools.extension/ToolsByGimhan.tab/Rebar.panel/BeamRebar.pushbutton/script.py",
      false, false, false⟩,
   ⟨"Update.extension/GimhanTools.tab/Admin.panel/UpdateExtensions.pushbutton/script.py",
      false, false, false⟩,
   ⟨"Update.extension/ToolsByGimhan.tab/Admin.panel/Update.pushbutton/script.py",
      false, false, false⟩,
   ⟨"Update.extension/hooks/app-init.py",
      false, false, false⟩,
   ⟨"Updater.tab/Updates.panel/UpdateExtensions.pushbutton/script.py",
      false, false, false⟩]

/-- How many repository files implement the heuristic. -/
def foundationHeuristicCount : Nat :=
  (repoSourceFiles.filter SourceFile.implementsHeuristic).length

/-- The C4 claim, formalised: nine source files implement the side-face
finding / pairing / offset-placement logic. -/
def NineNearDuplicatesClaim : Prop := foundationHeuristicCount = 9

/-- Counterexample to C4: exactly one source file of the repository
implements the heuristic, not nine. -/
theorem foundation_heuristic_count_ne_nine :
    foundationHeuristicCount = 1 ∧ ¬NineNearDuplicatesClaim := by
  constructor
  · rfl
  · intro h
    have : (1 : Nat) = 9 := by
      rw [← h]; rfl
    exact absurd this (by decide)

/-- Amended claim C4: the repository's twelve source files contain a
single implementation of the foundation auto-dimensioning heuristic,
`DimFoundation.pushbutton/script.py`. -/
theorem foundation_heuristic_single_file :
    repoSourceFiles.length = 12 ∧
    (repoSourceFiles.filter SourceFile.implementsHeuristic).map
        SourceFile.path
      = ["DimensionTools.extension/ToolsByGimhan.tab/Annotate.panel/DimFoundation.pushbutton/script.py"] :=
  ⟨rfl, rfl⟩

/-! ## C3: the foundation auto-dimensioning geometry fallback
(`DimFoundation.pushbutton/script.py`: `get_side_faces` lines 10-36, the
pairing loop of `create_dimensions_for_foundation` lines 136-167, and
`make_dim` lines 67-97). -/

/-- A Revit face as the script reads it: its normal at `UV(0.5, 0.5)`
(`ComputeNormal`), its surface point at `UV(0.5, 0.5)` (`Evaluate`), and
whether `face.Reference` is non-null. -/
structure Face where
  normal : Vec3
  midPt : Vec3
  hasRef : Bool
deriving DecidableEq, Repr

/-- The filter of `get_side_faces`: skip faces without a reference, keep
a face when `abs(normal.DotProduct(view_dir)) < 0.01`. -/
def sideFacePred (v : Vec3) (f : Face) : Bool :=
  f.hasRef && decide (|f.normal.dot v| < 1/100)

mutual
/-- A geometry object as `walk_geom` traverses it: a solid carrying
faces, or a `GeometryInstance` carrying nested geometry
(`GetInstanceGeometry`). -/
inductive GeomObj where
  | solid (faces : List Face) : GeomObj
  | inst (objs : GeomList) : GeomObj
/-- The iterable of geometry objects `walk_geom` receives. -/
inductive GeomList where
  | nil : GeomList
  | cons (g : GeomObj) (gs : GeomList) : GeomList
end

mutual
/-- `walk_geom` on one object: collect the referenced near-perpendicular
faces of a solid, recurse into a geometry instance. -/
def walkGeom (v : Vec3) : GeomObj → List Face
  | .solid fs => fs.filter (sideFacePred v)
  | .inst gs => walkGeomList v gs
/-- `walk_geom` over the iterable of geometry objects. -/
def walkGeomList (v : Vec3) : GeomList → List Face
  | .nil => []
  | .cons g gs => walkGeom v g ++ walkGeomList v gs
end

mutual
/-- All faces of a geometry object, with no filtering. -/
def allFacesGeom : GeomObj → List Face
  | .solid fs => fs
  | .inst gs => allFacesList gs
/-- All faces of an iterable of geometry objects, with no filtering. -/
def allFacesList : GeomList → List Face
  | .nil => []
  | .cons g gs => allFacesGeom g ++ allFacesList gs
end

/-- `get_side_faces(foundation, view)`: walk the foundation geometry with
the side-face filter against the view direction. -/
def getSideFaces (v : Vec3) (geom : GeomList) : List Face :=
  walkGeomList v geom

mutual
/-- Membership in the walk result: a face is collected exactly when it is
a face of the geometry and passes the side-face filter. -/
theorem mem_walkGeom (v : Vec3) (f : Face) : (g : GeomObj) →
    (f ∈ walkGeom v g ↔ f ∈ allFacesGeom g ∧ sideFacePred v f = true)
  | .solid fs => by simp [walkGeom, allFacesGeom, List.mem_filter]
  | .inst gs => by
    rw [walkGeom, allFacesGeom]
    exact mem_walkGeomList v f gs
/-- Membership in the walk result over an iterable of geometry
objects. -/
theorem mem_walkGeomList (v : Vec3) (f : Face) : (gs : GeomList) →
    (f ∈ walkGeomList v gs ↔ f ∈ allFacesList gs ∧ sideFacePred v f = true)
  | .nil => by simp [walkGeomList, allFacesList]
  | .cons g gs => by
    rw [walkGeomList, allFacesList]
    simp only [List.mem_append, mem_walkGeom v f g, mem_walkGeomList v f gs]
    tauto
end

/-- The pairing test of the fallback loop:
`abs(abs(n1.DotProduct(n2)) - 1.0) < 0.01` (normals parallel or
anti-parallel). -/
def parallelish (n1 n2 : Vec3) : Bool :=
  decide (|(|n1.dot n2|) - 1| < 1/100)

/-- The pair ordering of the fallback loop: evaluate both faces at
`UV(0.5, 0.5)`, choose the axis by `is_x_aligned = abs(n1.X) > abs(n1.Y)`
(from the first face's normal), and order the pair low-to-high along that
axis. -/
def orderPair (f1 f2 : Face) : Face × Face :=
  if |f1.normal.x| > |f1.normal.y| then
    if f1.midPt.x < f2.midPt.x then (f1, f2) else (f2, f1)
  else
    if f1.midPt.y < f2.midPt.y then (f1, f2) else (f2, f1)

/-- The inner loop `for j in range(i+1, ...)`: skip used indices, and at
the first unused near-parallel partner return its index and the ordered
pair (the loop `break`s there). -/
def innerScan (f1 : Face) (used : List Nat) :
    List (Nat × Face) → Option (Nat × (Face × Face))
  | [] => none
  | (j, f2) :: rest =>
    if j ∈ used then innerScan f1 used rest
    else if parallelish f1.normal f2.normal then some (j, orderPair f1 f2)
    else innerScan f1 used rest

/-- The outer loop `for i in range(len(side_faces))`: skip used indices,
scan the remaining faces for a partner, and on success emit the pair and
mark both indices used. -/
def outerScan (used : List Nat) :
    List (Nat × Face) → List (Face × Face)
  | [] => []
  | (i, f1) :: rest =>
    if i ∈ used then outerScan used rest
    else
      match innerScan f1 used rest with
      | none => outerScan used rest
      | some (j, pr) => pr :: outerScan (i :: j :: used) rest

/-- The whole pairing phase of the geometry fallback, over the indexed
side faces. -/
def buildPairs (sideFaces : List Face) : List (Face × Face) :=
  outerScan [] sideFaces.enum

/-- A Revit bounding box (`get_BoundingBox(view)`). -/
structure BBox where
  min : Vec3
  max : Vec3
deriving DecidableEq, Repr

/-- `center = (bbox.Min + bbox.Max) / 2.0`. -/
def bboxCenter (b : BBox) : Vec3 :=
  ⟨(b.min.x + b.max.x) / 2, (b.min.y + b.max.y) / 2, (b.min.z + b.max.z) / 2⟩

/-- The dimension-line origin of `make_dim`: for a width dimension the
placement normal is `(0, -1, 0)` with offset `(bbox.Max.Y - bbox.Min.Y)/2
+ 3.0`, otherwise `(1, 0, 0)` with offset `(bbox.Max.X - bbox.Min.X)/2 +
3.0`; `line_orig = center + placement_normal * offset`, with its Z then
forced to the view origin Z (`level_elev = view.Origin.Z`). -/
def makeDimLineOrigin (b : BBox) (viewOriginZ : ℚ) (isWidthDim : Bool) :
    Vec3 :=
  let center := bboxCenter b
  let pn : Vec3 := if isWidthDim then ⟨0, -1, 0⟩ else ⟨1, 0, 0⟩
  let off : ℚ :=
    if isWidthDim then (b.max.y - b.min.y) / 2 + 3
    else (b.max.x - b.min.x) / 2 + 3
  let o := center.add (Vec3.smul off pn)
  ⟨o.x, o.y, viewOriginZ⟩

theorem Vec3.dot_comm (a b : Vec3) : a.dot b = b.dot a := by
  unfold Vec3.dot; ring

theorem parallelish_comm (a b : Vec3) : parallelish a b = parallelish b a := by
  unfold parallelish; rw [Vec3.dot_comm]

theorem orderPair_cases (f1 f2 : Face) :
    orderPair f1 f2 = (f1, f2) ∨ orderPair f1 f2 = (f2, f1) := by
  unfold orderPair
  split_ifs <;> first | exact Or.inl rfl | exact Or.inr rfl

theorem orderPair_sorted (f1 f2 : Face) :
    if |f1.normal.x| > |f1.normal.y|
    then (orderPair f1 f2).1.midPt.x ≤ (orderPair f1 f2).2.midPt.x
    else (orderPair f1 f2).1.midPt.y ≤ (orderPair f1 f2).2.midPt.y := by
  unfold orderPair
  split_ifs with h1 h2 h3
  · exact le_of_lt h2
  · exact le_of_not_lt h2
  · exact le_of_lt h3
  · exact le_of_not_lt h3

theorem innerScan_spec (f1 : Face) (used : List Nat) :
    ∀ (l : List (Nat × Face)) (j : Nat) (pr : Face × Face),
      innerScan f1 used l = some (j, pr) →
      ∃ f2, (j, f2) ∈ l ∧ parallelish f1.normal f2.normal = true ∧
        pr = orderPair f1 f2
  | [], j, pr, h => by simp [innerScan] at h
  | (j', f2') :: rest, j, pr, h => by
    rw [innerScan] at h
    split_ifs at h with h1 h2
    · obtain ⟨f2, hm, hp, he⟩ := innerScan_spec f1 used rest j pr h
      exact ⟨f2, List.mem_cons_of_mem _ hm, hp, he⟩
    · simp only [Option.some.injEq, Prod.mk.injEq] at h
      exact ⟨f2', h.1 ▸ List.mem_cons_self _ _, h2, h.2.symm⟩
    · obtain ⟨f2, hm, hp, he⟩ := innerScan_spec f1 used rest j pr h
      exact ⟨f2, List.mem_cons_of_mem _ hm, hp, he⟩

theorem outerScan_spec :
    ∀ (l : List (Nat × Face)) (used : List Nat) (pr : Face × Face),
      pr ∈ outerScan used l →
      ∃ f1 f2 i j, (i, f1) ∈ l ∧ (j, f2) ∈ l ∧
        parallelish f1.normal f2.normal = true ∧ pr = orderPair f1 f2
  | [], used, pr, h => by simp [outerScan] at h
  | (i, f1) :: rest, used, pr, h => by
    rw [outerScan] at h
    split_ifs at h with h1
    · obtain ⟨g1, g2, i', j', hm1, hm2, hp, he⟩ :=
        outerScan_spec rest used pr h
      exact ⟨g1, g2, i', j', List.mem_cons_of_mem _ hm1,
        List.mem_cons_of_mem _ hm2, hp, he⟩
    · split at h
      · obtain ⟨g1, g2, i', j', hm1, hm2, hp, he⟩ :=
          outerScan_spec rest used pr h
        exact ⟨g1, g2, i', j', List.mem_cons_of_mem _ hm1,
          List.mem_cons_of_mem _ hm2, hp, he⟩
      · next j pr0 hscan =>
        rcases List.mem_cons.mp h with rfl | hm
        · obtain ⟨f2, hjf2, hp, he⟩ := innerScan_spec f1 used rest j pr hscan
          exact ⟨f1, f2, i, j, List.mem_cons_self _ _,
            List.mem_cons_of_mem _ hjf2, hp, he⟩
        · obtain ⟨g1, g2, i', j', hm1, hm2, hp, he⟩ :=
            outerScan_spec rest (i :: j :: used) pr hm
          exact ⟨g1, g2, i', j', List.mem_cons_of_mem _ hm1,
            List.mem_cons_of_mem _ hm2, hp, he⟩

/-- Claim C3: the geometry fallback (i) collects exactly the referenced
faces whose normal is near-perpendicular to the view direction
(`|normal.dot viewDir| < 0.01`), (ii) every emitted pair consists of two
side faces whose normals are parallel or anti-parallel
(`||n1.dot n2| - 1| < 0.01`), ordered low-to-high along the axis chosen
by the first face's normal, and (iii) each dimension line is placed at an
offset of half the bounding-box extent plus 3.0 feet from the bounding
box centre, on the view origin Z plane. -/
theorem dimFoundation_geometry_fallback (v : Vec3) (geom : GeomList)
    (b : BBox) (z : ℚ) :
    (∀ f, f ∈ getSideFaces v geom ↔
      f ∈ allFacesList geom ∧ f.hasRef = true ∧ |f.normal.dot v| < 1/100) ∧
    (∀ pr ∈ buildPairs (getSideFaces v geom),
      (|(|pr.1.normal.dot pr.2.normal|) - 1| < 1/100) ∧
      ∃ f1 f2, f1 ∈ getSideFaces v geom ∧ f2 ∈ getSideFaces v geom ∧
        pr = orderPair f1 f2 ∧
        (if |f1.normal.x| > |f1.normal.y|
         then pr.1.midPt.x ≤ pr.2.midPt.x
         else pr.1.midPt.y ≤ pr.2.midPt.y)) ∧
    (makeDimLineOrigin b z true
        = ⟨(bboxCenter b).x, (bboxCenter b).y - ((b.max.y - b.min.y) / 2 + 3),
            z⟩ ∧
      makeDimLineOrigin b z false
        = ⟨(bboxCenter b).x + ((b.max.x - b.min.x) / 2 + 3), (bboxCenter b).y,
            z⟩) := by
  refine ⟨fun f => ?_, fun pr hpr => ?_, ?_, ?_⟩
  · rw [getSideFaces, mem_walkGeomList]
    simp [sideFacePred, Bool.and_eq_true, decide_eq_true_eq, and_assoc]
  · obtain ⟨f1, f2, i, j, hm1, hm2, hp, he⟩ :=
      outerScan_spec (getSideFaces v geom).enum [] pr hpr
    have hf1 : f1 ∈ getSideFaces v geom := List.snd_mem_of_mem_enum hm1
    have hf2 : f2 ∈ getSideFaces v geom := List.snd_mem_of_mem_enum hm2
    have hpar : |(|f1.normal.dot f2.normal|) - 1| < 1/100 := by
      have := of_decide_eq_true hp
      exact this
    constructor
    · rcases orderPair_cases f1 f2 with hc | hc <;> rw [he, hc]
      · exact hpar
      · rw [Vec3.dot_comm]
        exact hpar
    · refine ⟨f1, f2, hf1, hf2, he, ?_⟩
      rw [he]
      exact orderPair_sorted f1 f2
  · simp only [makeDimLineOrigin, bboxCenter, Vec3.add, Vec3.smul,
      if_true, Vec3.mk.injEq]
    refine ⟨by ring, by ring, trivial⟩
  · simp only [makeDimLineOrigin, bboxCenter, Vec3.add, Vec3.smul,
      Bool.false_eq_true, if_false, Vec3.mk.injEq]
    refine ⟨by ring, by ring, trivial⟩

/-- A view direction for the witness: plan view, looking along Z. -/
def demoV : Vec3 := ⟨0, 0, 1⟩

/-- A referenced side face with normal `+X` for the witness. -/
def demoF1 : Face := ⟨⟨1, 0, 0⟩, ⟨1, 0, 0⟩, true⟩

/-- A referenced side face with normal `-X` for the witness. -/
def demoF2 : Face := ⟨⟨-1, 0, 0⟩, ⟨-1, 0, 0⟩, true⟩

/-- A referenced top face (normal along the view direction), filtered
out. -/
def demoFTop : Face := ⟨⟨0, 0, 1⟩, ⟨0, 0, 2⟩, true⟩

/-- A side face without a reference, filtered out. -/
def demoFNoRef : Face := ⟨⟨0, 1, 0⟩, ⟨0, 1, 0⟩, false⟩

/-- One solid with the four witness faces. -/
def demoGeom : GeomList :=
  .cons (.solid [demoF1, demoFTop, demoF2, demoFNoRef]) .nil

/-- A bounding box for the witness. -/
def demoBox : BBox := ⟨⟨0, 0, 0⟩, ⟨2, 4, 1⟩⟩

theorem demo_pred_f1 : sideFacePred demoV demoF1 = true := by
  rw [sideFacePred]
  norm_num [demoV, demoF1, Vec3.dot]

theorem demo_pred_f2 : sideFacePred demoV demoF2 = true := by
  rw [sideFacePred]
  norm_num [demoV, demoF2, Vec3.dot]

theorem demo_pred_ftop : sideFacePred demoV demoFTop = false := by
  rw [sideFacePred]
  norm_num [demoV, demoFTop, Vec3.dot]

theorem demo_pred_fnoref : sideFacePred demoV demoFNoRef = false := by
  rw [sideFacePred]
  norm_num [demoFNoRef]

theorem demo_side_faces : getSideFaces demoV demoGeom = [demoF1, demoF2] := by
  rw [getSideFaces, demoGeom, walkGeomList, walkGeom, walkGeomList]
  simp [List.filter, demo_pred_f1, demo_pred_f2, demo_pred_ftop,
    demo_pred_fnoref]

theorem demo_parallelish :
    parallelish demoF1.normal demoF2.normal = true := by
  rw [parallelish]
  norm_num [demoF1, demoF2, Vec3.dot]

theorem demo_orderPair : orderPair demoF1 demoF2 = (demoF2, demoF1) := by
  rw [orderPair]
  norm_num [demoF1, demoF2]

theorem demo_pairs :
    buildPairs (getSideFaces demoV demoGeom) = [(demoF2, demoF1)] := by
  rw [demo_side_faces]
  show outerScan [] [(0, demoF1), (1, demoF2)] = [(demoF2, demoF1)]
  rw [outerScan]
  simp only [List.not_mem_nil, if_false]
  rw [innerScan]
  simp only [List.not_mem_nil, if_false, demo_parallelish, if_true,
    demo_orderPair]
  rw [outerScan, outerScan]
  simp

/-- Witness for C3, evaluated on the concrete geometry: the filter keeps
exactly the two referenced side faces, the single emitted pair is the
anti-parallel pair ordered low-to-high along X, and the width dimension
line origin is the bounding-box centre shifted by half the Y extent plus
3 feet, at the view origin Z. -/
theorem dimFoundation_geometry_fallback_witness :
    getSideFaces demoV demoGeom = [demoF1, demoF2] ∧
    buildPairs (getSideFaces demoV demoGeom) = [(demoF2, demoF1)] ∧
    (demoF1 ∈ getSideFaces demoV demoGeom ↔
      demoF1 ∈ allFacesList demoGeom ∧ demoF1.hasRef = true ∧
        |demoF1.normal.dot demoV| < 1/100) ∧
    (|(|(demoF2, demoF1).1.normal.dot (demoF2, demoF1).2.normal|) - 1|
      < 1/100) ∧
    makeDimLineOrigin demoBox 7 true
      = ⟨(bboxCenter demoBox).x,
          (bboxCenter demoBox).y - ((demoBox.max.y - demoBox.min.y) / 2 + 3),
          7⟩ := by
  have h := dimFoundation_geometry_fallback demoV demoGeom demoBox 7
  refine ⟨demo_side_faces, demo_pairs, h.1 demoF1, ?_, h.2.2.1⟩
  exact (h.2.1 (demoF2, demoF1)
    (by rw [demo_pairs]; exact List.mem_singleton.mpr rfl)).1

end Gimhan
